import Mathlib

/-!
Verification of the flight-data loader and VMI cost function of
`control.py` (functions `load_flight_data` and `vmi_cost_function`).

The Python source is shallowly embedded: file contents are `String`s,
numeric values are `ℚ` (all values appearing in the properties are
exactly representable), pandas data frames are a record of column
labels, an integer row index and a row-major table, and each fallible
library call is modelled by an `Except` result whose error constructor
records which Python exception is being modelled.
-/

set_option maxRecDepth 4000

/-- Errors raised while loading or reducing flight data.
`FormatError` models the `ValueError` raised by `pd.DataFrame` when the
column-label list does not match the data width (which is how a missing
header line manifests, since the label list stays empty).
`ParseError k` models the `ValueError` raised by `np.loadtxt` on a
non-numeric token, carrying the 0-based index `k` of the offending data
row.  `RaggedRow k` models `np.loadtxt`'s error for an inconsistent
column count.  `KeyError` models a pandas column lookup failure, and
`FileNotFound` models `FileNotFoundError` from `open`. -/
inductive PyError where
  | FormatError : PyError
  | ParseError : Nat → PyError
  | RaggedRow : Nat → PyError
  | KeyError : String → PyError
  | FileNotFound : PyError
deriving DecidableEq, Repr

instance {ε α : Type} [DecidableEq ε] [DecidableEq α] : DecidableEq (Except ε α) := fun x y =>
  match x, y with
  | .ok a, .ok b =>
    if h : a = b then .isTrue (by rw [h]) else .isFalse (fun hc => by cases hc; exact h rfl)
  | .error a, .error b =>
    if h : a = b then .isTrue (by rw [h]) else .isFalse (fun hc => by cases hc; exact h rfl)
  | .ok _, .error _ => .isFalse (fun hc => by cases hc)
  | .error _, .ok _ => .isFalse (fun hc => by cases hc)

/-! ### Python / numpy string primitives -/

/-- Split a character stream into lines, each keeping its trailing
terminator, exactly as Python file iteration yields them. -/
def splitKeepCore : List Char → List Char → List (List Char)
  | [], acc => if acc.isEmpty then [] else [acc.reverse]
  | c :: rest, acc =>
    if c = '\n' then (acc.reverse ++ ['\n']) :: splitKeepCore rest []
    else splitKeepCore rest (c :: acc)

/-- The lines of a file, with terminators kept (Python `for line in file`). -/
def pyLines (s : String) : List String :=
  (splitKeepCore s.data []).map String.mk

/-- Split on every occurrence of a separator character, keeping empty
pieces, exactly as Python `str.split(',')` does. -/
def pySplitCore (c : Char) : List Char → List (List Char)
  | [] => [[]]
  | x :: xs =>
    let r := pySplitCore c xs
    if x = c then [] :: r
    else
      match r with
      | h :: t => (x :: h) :: t
      | [] => [[x]]

/-- Python `s.split(c)` for a one-character separator. -/
def pySplit (s : String) (c : Char) : List String :=
  (pySplitCore c s.data).map String.mk

/-- Python slice `s[1:-1]`: drop the first and the last character. -/
def pyStrip1 (s : String) : String :=
  String.mk ((s.data.drop 1).dropLast)

/-- Whitespace characters stripped by `str.strip` / `np.loadtxt`. -/
def isWs (c : Char) : Bool :=
  c = ' ' || c = '\t' || c = '\n' || c = '\r'

/-- Python `str.strip()`. -/
def stripWs (s : String) : String :=
  String.mk (((s.data.dropWhile isWs).reverse.dropWhile isWs).reverse)

/-- Drop everything from the first `#` on (numpy comment handling). -/
def truncAtHash (s : String) : String :=
  String.mk (s.data.takeWhile (fun c => c ≠ '#'))

/-- Whether `n` is a prefix of the second list (character-wise equality). -/
def leadEq : List Char → List Char → Bool
  | [], _ => true
  | _ :: _, [] => false
  | a :: as, b :: bs => a = b && leadEq as bs

/-- Whether `n` occurs as a contiguous run inside the second list
(Python substring containment `n in line`). -/
def hasSub (n : List Char) : List Char → Bool
  | [] => n.isEmpty
  | x :: xs => leadEq n (x :: xs) || hasSub n xs

/-! ### Float-literal parsing (`float(...)` as used by `np.loadtxt`) -/

def isDigitC (c : Char) : Bool := 48 ≤ c.toNat && c.toNat ≤ 57

def digitVal (c : Char) : Nat := c.toNat - 48

def natOfDigits (ds : List Char) : Nat :=
  ds.foldl (fun a c => 10 * a + digitVal c) 0

/-- Parse a decimal floating-point literal (optional sign, optional
fractional part, optional exponent) into an exact rational.  Special
tokens (`nan`, `inf`) are outside the model; every value in the
verified properties is an ordinary decimal literal. -/
def parseFloat (s : String) : Option ℚ :=
  let cs := s.data
  let sgncs : ℚ × List Char :=
    match cs with
    | '-' :: r => (-1, r)
    | '+' :: r => (1, r)
    | _ => (1, cs)
  let sgn := sgncs.1
  let cs1 := sgncs.2
  let intDs := cs1.takeWhile isDigitC
  let cs2 := cs1.dropWhile isDigitC
  let fraccs : List Char × List Char :=
    match cs2 with
    | '.' :: r => (r.takeWhile isDigitC, r.dropWhile isDigitC)
    | _ => ([], cs2)
  let fracDs := fraccs.1
  let cs3 := fraccs.2
  if intDs.length + fracDs.length = 0 then none
  else
    let mant : ℚ := (natOfDigits intDs : ℚ) + (natOfDigits fracDs : ℚ) / ((10 : ℚ) ^ fracDs.length)
    match cs3 with
    | [] => some (sgn * mant)
    | e :: r =>
      if e = 'e' || e = 'E' then
        let esr : Int × List Char :=
          match r with
          | '-' :: r2 => (-1, r2)
          | '+' :: r2 => (1, r2)
          | _ => (1, r)
        let eDs := esr.2.takeWhile isDigitC
        let rest := esr.2.dropWhile isDigitC
        if eDs.length = 0 ∨ rest ≠ [] then none
        else some (sgn * mant * (10 : ℚ) ^ (esr.1 * (natOfDigits eDs : Int)))
      else none

/-! ### Header scan (`control.py` lines 78–87) -/

/-- The fixed marker token identifying the header line. -/
def markerStr : String := "\x22Ion N\x22"

/-- Whether line number `j` of the file contains the marker. -/
def lineIsMarker (content : String) (j : Nat) : Bool :=
  match (pyLines content)[j]? with
  | some m => hasSub markerStr.data m.data
  | none => false

/-- The column labels obtained from the first marker line.  The Python
loop body ends with the unconditional `df_index[i] = idx[1:-1]`, which
overwrites the newline-stripping branch, so each field is exactly the
Python slice `idx[1:-1]` of the raw comma-separated field.  When no
line contains the marker, `df_index` keeps its initial value `[]`. -/
def scanHeader (content : String) : List String :=
  match (pyLines content).find? (fun l => hasSub markerStr.data l.data) with
  | some l => (pySplit l ',').map pyStrip1
  | none => []

/-! ### Numeric body (`np.loadtxt(..., skiprows=12, delimiter=',')`) -/

/-- numpy row cleaning: truncate at a comment character, then strip. -/
def cleanLine (l : String) : String := stripWs (truncAtHash l)

/-- The data lines `np.loadtxt` actually parses: everything after the
fixed 12-line skip, cleaned, with blank lines removed. -/
def dataLines (content : String) : List String :=
  (((pyLines content).drop 12).map cleanLine).filter (fun l => l ≠ "")

def parseTokens : List String → Option (List ℚ)
  | [] => some []
  | t :: ts =>
    match parseFloat (stripWs t), parseTokens ts with
    | some v, some vs => some (v :: vs)
    | _, _ => none

/-- Parse one data line as comma-separated floats. -/
def parseRow (l : String) : Option (List ℚ) :=
  parseTokens (pySplit l ',')

/-- Whether a row's field count agrees with the width fixed so far. -/
def widthOk : Option Nat → Nat → Bool
  | none, _ => true
  | some w, n => n == w

/-- Row-by-row parsing loop of `np.loadtxt`: `k` is the index of the
current data row (reported in errors), `w?` the column count fixed by
the first row. -/
def loadtxtRows : List String → Nat → Option Nat → Except PyError (List (List ℚ))
  | [], _, _ => .ok []
  | l :: rest, k, w? =>
    match parseRow l with
    | none => .error (.ParseError k)
    | some vals =>
      if widthOk w? vals.length then
        match loadtxtRows rest (k + 1) (some vals.length) with
        | .error e => .error e
        | .ok rs => .ok (vals :: rs)
      else .error (.RaggedRow k)

/-- `np.loadtxt(f, skiprows=12, delimiter=',')` on the file contents. -/
def loadtxt (content : String) : Except PyError (List (List ℚ)) :=
  loadtxtRows (dataLines content) 0 none

/-! ### Data frames -/

/-- A pandas data frame over numeric data: column labels, the integer
row index, and the row-major data table. -/
structure DataFrame where
  cols : List String
  idx : List Nat
  data : List (List ℚ)
deriving DecidableEq, Repr

/-- `pd.DataFrame(flight_data, columns=df_index)`.  numpy returns a
2-D array only when there are at least two rows; a single row comes
back 1-D and is treated by pandas as a single column, and an empty
result is 1-D as well.  In every case pandas raises a `ValueError` if
the label count does not match the inferred column count. -/
def mkDF (labels : List String) (rows : List (List ℚ)) : Except PyError DataFrame :=
  match rows with
  | [] =>
    if labels.length = 1 then .ok ⟨labels, [], []⟩ else .error .FormatError
  | [r] =>
    if labels.length = 1 then
      .ok ⟨labels, List.range r.length, r.map (fun x => [x])⟩
    else .error .FormatError
  | r :: rest =>
    if labels.length = r.length then
      .ok ⟨labels, List.range (r :: rest).length, r :: rest⟩
    else .error .FormatError

/-- Every second element, starting with the first (Python `[::2]`). -/
def everyOther {α : Type} : List α → List α
  | [] => []
  | [a] => [a]
  | a :: _ :: t => a :: everyOther t

/-- `df[::2]`: rows (and index labels) at even positions. -/
def evenSlice (df : DataFrame) : DataFrame :=
  ⟨df.cols, everyOther df.idx, everyOther df.data⟩

/-- `df[1::2]`: rows (and index labels) at odd positions. -/
def oddSlice (df : DataFrame) : DataFrame :=
  ⟨df.cols, everyOther (df.idx.drop 1), everyOther (df.data.drop 1)⟩

/-- `df.reset_index()`: the old index becomes a first column named
`index` and the row labels become the dense sequence `0..n-1`. -/
def reset_index (df : DataFrame) : DataFrame :=
  ⟨"index" :: df.cols, List.range df.data.length,
    List.zipWith (fun (i : Nat) r => ((i : ℚ) :: r)) df.idx df.data⟩

/-- `df[name]`: the first column labelled `name`, or a `KeyError`. -/
def DataFrame.col (df : DataFrame) (name : String) : Except PyError (List ℚ) :=
  match df.cols.findIdx? (fun c => c = name) with
  | some i => .ok (df.data.map (fun r => r.getD i 0))
  | none => .error (.KeyError name)

/-! ### The loader (`load_flight_data`, `control.py` lines 75–95) -/

/-- `load_flight_data`, split over the two reads of the results file:
the header scan reads `hdrContent`, `np.loadtxt` reads `bodyContent`.
In the program both reads see the same file. -/
def load_two (hdrContent bodyContent : String) : Except PyError (DataFrame × DataFrame) :=
  let labels := scanHeader hdrContent
  match loadtxt bodyContent with
  | .error e => .error e
  | .ok rows =>
    match mkDF labels rows with
    | .error e => .error e
    | .ok df => .ok (reset_index (evenSlice df), reset_index (oddSlice df))

/-- `load_flight_data` as a function of the results-file contents. -/
def load_flight_data (content : String) : Except PyError (DataFrame × DataFrame) :=
  load_two content content

/-! ### The cost function (`vmi_cost_function`, `control.py` lines 110–124) -/

/-- `pd.Series.unique`: distinct values in order of first appearance. -/
def uniques (l : List ℚ) : List ℚ :=
  l.foldl (fun acc x => if x ∈ acc then acc else acc ++ [x]) []

/-- `df_res.loc[df_ic['KE'] == energy]['Y']`: the final-state values at
the row positions whose initial value equals `e` (the two frames carry
the same dense `0..n-1` index, so label alignment is positional). -/
def selectEq (ke ys : List ℚ) (e : ℚ) : List ℚ :=
  (List.zip ke ys).filterMap (fun p => if p.1 = e then some p.2 else none)

/-- `Series.max` of a non-empty series (`0` is junk for the empty case,
which the cost function never hits). -/
def maxQ : List ℚ → ℚ
  | [] => 0
  | x :: xs => xs.foldl max x

/-- `Series.min`, same conventions as `maxQ`. -/
def minQ : List ℚ → ℚ
  | [] => 0
  | x :: xs => xs.foldl min x

/-- The grouping loop body: one iteration per distinct initial energy,
looking the `Y` column up inside the loop as the source does. -/
def goGroups : List ℚ → List ℚ → DataFrame → ℚ → Except PyError ℚ
  | [], _, _, acc => .ok acc
  | e :: es, ke, df_res, acc =>
    match df_res.col "Y" with
    | .error err => .error err
    | .ok ys =>
      goGroups es ke df_res
        (acc + (maxQ (selectEq ke ys e) - minQ (selectEq ke ys e)) ^ 2)

/-- The grouping-penalty term of `vmi_cost_function` (lines 112–116). -/
def groupFold (df_ic df_res : DataFrame) : Except PyError ℚ :=
  match df_ic.col "KE" with
  | .error e => .error e
  | .ok ke => goGroups (uniques ke) ke df_res 0

/-- The monotonicity loop (lines 118–120): starting from `p`, add `500`
for every adjacent pair with `voltages[i+1] > voltages[i]`. -/
def monoFold (vs : List ℚ) (p : ℚ) : ℚ :=
  (List.range (vs.length - 1)).foldl
    (fun acc i => if vs.getD (i + 1) 0 > vs.getD i 0 then acc + 500 else acc) p

/-- The number of increasing adjacent pairs of the voltage vector. -/
def countIncr (vs : List ℚ) : ℚ :=
  (((List.range (vs.length - 1)).filter
      (fun i => decide (vs.getD (i + 1) 0 > vs.getD i 0))).length : ℚ)

/-- The penalty computed by `vmi_cost_function` from the two loaded
frames and the voltage vector. -/
def vmi_penalty (df_ic df_res : DataFrame) (vs : List ℚ) : Except PyError ℚ :=
  match groupFold df_ic df_res with
  | .error e => .error e
  | .ok p1 => .ok (monoFold vs p1)

/-- The data-dependent core of `vmi_cost_function`: load the results
artifact, then reduce it to the scalar penalty.  The external
fast-adjust and fly invocations only produce the artifact and are
modelled as the hand-off of its contents. -/
def vmi_cost_core (content : String) (vs : List ℚ) : Except PyError ℚ :=
  match load_flight_data content with
  | .error e => .error e
  | .ok dfs => vmi_penalty dfs.1 dfs.2 vs

/-! ### File-system wrapper (frame property) -/

/-- A file system: contents per path. -/
def FS := String → Option String

/-- Reading a file returns its contents and leaves the system as is. -/
def readFile (fs : FS) (p : String) : Option String × FS := (fs p, fs)

/-- `load_flight_data` with its two file reads made explicit: the
header scan (`open`) and `np.loadtxt` each read `name ++ ".txt"`. -/
def load_flight_data_io (fs : FS) (name : String) :
    Except PyError (DataFrame × DataFrame) × FS :=
  let r1 := readFile fs (name ++ ".txt")
  match r1.1 with
  | none => (.error .FileNotFound, r1.2)
  | some content1 =>
    let r2 := readFile r1.2 (name ++ ".txt")
    match r2.1 with
    | none => (.error .FileNotFound, r2.2)
    | some content2 => (load_two content1 content2, r2.2)

/-! ### Concrete results artifacts

Each artifact has the fixed 12 header-region lines (the marker line among
them) followed by the numeric body, exactly as the external tool writes
them. -/

/-- Artifact with header `"Ion N","KE","Y"` and 4 body rows. -/
def art1 : String :=
"x\nx\n\x22Ion N\x22,\x22KE\x22,\x22Y\x22\nx\nx\nx\nx\nx\nx\nx\nx\nx\n1,1.0,7.0\n1,1.0,8.0\n2,3.0,7.0\n2,3.0,9.0\n"

/-- Artifact with an odd number (3) of body rows. -/
def art2 : String :=
"x\nx\n\x22Ion N\x22,\x22KE\x22,\x22Y\x22,\x22Q\x22\nx\nx\nx\nx\nx\nx\nx\nx\nx\n1,1.0,7.0,0.0\n1,1.0,8.0,0.0\n2,3.0,7.0,0.0\n"

/-- Artifact with two energy groups of two ions each: group `KE = 1`
has final `Y` values `{1.0, 1.0}`, group `KE = 2` has `{2.0, 4.0}`. -/
def art4 : String :=
"x\nx\n\x22Ion N\x22,\x22KE\x22,\x22Y\x22,\x22TOF\x22\nx\nx\nx\nx\nx\nx\nx\nx\nx\n1,1.0,0.0,0.0\n1,1.0,1.0,5.0\n2,1.0,0.0,0.0\n2,1.0,1.0,5.0\n3,2.0,0.0,0.0\n3,2.0,2.0,5.0\n4,2.0,0.0,0.0\n4,2.0,4.0,5.0\n"

/-- Artifact with no marker line and a malformed numeric body row. -/
def art7 : String :=
"x\nx\nx\nx\nx\nx\nx\nx\nx\nx\nx\nx\nhello\n"

/-- Artifact with no marker line but a clean numeric body. -/
def artNM : String :=
"x\nx\nx\nx\nx\nx\nx\nx\nx\nx\nx\nx\n1.0,2.0\n"

/-- Artifact whose second data row carries a non-numeric token. -/
def art8 : String :=
"x\nx\n\x22Ion N\x22,\x22KE\x22\nx\nx\nx\nx\nx\nx\nx\nx\nx\n1.0,2.0\n1.0,oops\n"

/-- `initial_table` returned by `load_flight_data` on `art1`. -/
def icA1 : DataFrame :=
  ⟨["index", "Ion N", "KE", "Y\x22"], [0, 1], [[0, 1, 1, 7], [2, 2, 3, 7]]⟩

/-- `final_table` returned by `load_flight_data` on `art1`. -/
def finA1 : DataFrame :=
  ⟨["index", "Ion N", "KE", "Y\x22"], [0, 1], [[1, 1, 1, 8], [3, 2, 3, 9]]⟩

/-- `initial_table` returned by `load_flight_data` on `art2`. -/
def icA2 : DataFrame :=
  ⟨["index", "Ion N", "KE", "Y", "Q\x22"], [0, 1], [[0, 1, 1, 7, 0], [2, 2, 3, 7, 0]]⟩

/-- `final_table` returned by `load_flight_data` on `art2`. -/
def finA2 : DataFrame :=
  ⟨["index", "Ion N", "KE", "Y", "Q\x22"], [0], [[1, 1, 1, 8, 0]]⟩

section ConcreteEvaluation

attribute [local semireducible] Rat.add Rat.sub Rat.mul Rat.inv

example : load_flight_data art1 = .ok (icA1, finA1) := by decide
example : load_flight_data art2 = .ok (icA2, finA2) := by decide
example : vmi_cost_core art4 [3000, 2000, 1000] = .ok 4 := by decide
example : load_flight_data art7 = .error (.ParseError 0) := by decide
example : load_flight_data artNM = .error .FormatError := by decide
example : load_flight_data art8 = .error (.ParseError 1) := by decide

end ConcreteEvaluation

/-! ### Structural lemmas about the parity split -/

theorem everyOther_length {α : Type} (l : List α) :
    (everyOther l).length = (l.length + 1) / 2 := by
  induction l using everyOther.induct with
  | case1 => simp [everyOther]
  | case2 a => simp [everyOther]
  | case3 a b t ih => simp only [everyOther, List.length_cons, ih]; omega

theorem everyOther_getElem? {α : Type} (i : Nat) (l : List α) :
    (everyOther l)[i]? = l[2 * i]? := by
  induction i generalizing l with
  | zero =>
    match l with
    | [] => simp [everyOther]
    | [a] => simp [everyOther]
    | a :: b :: t => simp [everyOther]
  | succ i ih =>
    match l with
    | [] => simp [everyOther]
    | [a] =>
      have h1 : ([a] : List α)[2 * (i + 1)]? = none := by
        apply List.getElem?_eq_none; simp; omega
      simp only [everyOther, h1]
      apply List.getElem?_eq_none; simp
    | a :: b :: t =>
      have h2 : 2 * (i + 1) = 2 * i + 1 + 1 := by omega
      simp only [everyOther, h2, List.getElem?_cons_succ, ih]

theorem find?_first {α : Type} (p : α → Bool) :
    ∀ (l : List α) (i : Nat) (a : α), l[i]? = some a → p a = true →
      (∀ j, j < i → ∀ b, l[j]? = some b → p b = false) →
      l.find? p = some a := by
  intro l
  induction l with
  | nil => intro i a h; simp at h
  | cons x xs ih =>
    intro i a h hp hprev
    match i with
    | 0 =>
      simp only [List.getElem?_cons_zero, Option.some.injEq] at h
      subst h
      exact List.find?_cons_of_pos _ hp
    | i + 1 =>
      have h0 : p x = false := hprev 0 (Nat.succ_pos i) x (by simp)
      rw [List.find?_cons_of_neg _ (by simp [h0])]
      apply ih i a (by simpa using h) hp
      intro j hj b hb
      exact hprev (j + 1) (by omega) b (by simpa using hb)

/-! ### Lemmas about the numeric body parser -/

theorem pySplitCore_ne_nil (c : Char) (l : List Char) : pySplitCore c l ≠ [] := by
  induction l with
  | nil => simp [pySplitCore]
  | cons x xs ih =>
    simp only [pySplitCore]
    by_cases hx : x = c
    · simp [hx]
    · simp only [if_neg hx]
      match h : pySplitCore c xs with
      | [] => exact absurd h ih
      | y :: ys => simp

theorem parseRow_ne_nil (l : String) (v : List ℚ) (h : parseRow l = some v) : v ≠ [] := by
  unfold parseRow at h
  match hs : pySplit l ',' with
  | [] =>
    exact absurd (by simpa [pySplit] using congrArg List.length hs)
      (by simpa using pySplitCore_ne_nil ',' l.data)
  | t :: ts =>
    rw [hs] at h
    unfold parseTokens at h
    match h1 : parseFloat (stripWs t), h2 : parseTokens ts with
    | some a, some as =>
      rw [h1, h2] at h
      simp only [Option.some.injEq] at h
      subst h; simp
    | some a, none => rw [h1, h2] at h; simp at h
    | none, some as => rw [h1, h2] at h; simp at h
    | none, none => rw [h1, h2] at h; simp at h

theorem loadtxtRows_nonempty :
    ∀ (ls : List String) (k : Nat) (w? : Option Nat) (rows : List (List ℚ)),
      loadtxtRows ls k w? = .ok rows → ∀ r ∈ rows, r ≠ [] := by
  intro ls
  induction ls with
  | nil =>
    intro k w? rows h r hr
    simp only [loadtxtRows, Except.ok.injEq] at h
    subst h; simp at hr
  | cons l rest ih =>
    intro k w? rows h r hr
    simp only [loadtxtRows] at h
    cases hp : parseRow l with
    | none => rw [hp] at h; simp at h
    | some vals =>
      rw [hp] at h
      dsimp only at h
      by_cases hw : widthOk w? vals.length = true
      · rw [if_pos hw] at h
        cases hrec : loadtxtRows rest (k + 1) (some vals.length) with
        | error e => rw [hrec] at h; simp at h
        | ok rs =>
          rw [hrec] at h
          simp only [Except.ok.injEq] at h
          subst h
          rw [List.mem_cons] at hr
          rcases hr with rfl | hr
          · exact parseRow_ne_nil l _ hp
          · exact ih (k + 1) (some vals.length) rs hrec r hr
      · rw [if_neg hw] at h; simp at h

theorem loadtxtRows_err (bad : String) (rest : List String) (hbad : parseRow bad = none) :
    ∀ (good : List String) (w : Nat),
      (∀ l ∈ good, (parseRow l).map List.length = some w) →
      ∀ (k : Nat) (w? : Option Nat), w? = none ∨ w? = some w →
      loadtxtRows (good ++ bad :: rest) k w? = .error (.ParseError (k + good.length)) := by
  intro good
  induction good with
  | nil =>
    intro w hw k w? hw?
    simp only [List.nil_append, loadtxtRows, hbad, List.length_nil, Nat.add_zero]
  | cons g gs ih =>
    intro w hw k w? hw?
    have hg := hw g (List.mem_cons_self g gs)
    cases hpg : parseRow g with
    | none => rw [hpg] at hg; simp at hg
    | some v =>
      rw [hpg] at hg
      simp only [Option.map_some', Option.some.injEq] at hg
      simp only [List.cons_append, loadtxtRows, hpg]
      have hwok : widthOk w? v.length = true := by
        rcases hw? with h | h <;> subst h <;> simp [widthOk, hg]
      rw [if_pos hwok]
      simp only [List.append_eq]
      rw [ih w (fun l hl => hw l (List.mem_cons_of_mem g hl)) (k + 1) (some v.length)
          (Or.inr (by rw [hg]))]
      simp only [List.length_cons, Except.error.injEq, PyError.ParseError.injEq]
      omega

theorem mkDF_ok_inv (labels : List String) (rows : List (List ℚ)) (df : DataFrame)
    (hne : rows.length ≠ 1) (h : mkDF labels rows = .ok df) :
    df.cols = labels ∧ df.idx = List.range rows.length ∧ df.data = rows := by
  cases rows with
  | nil =>
    simp only [mkDF] at h
    by_cases hl : labels.length = 1
    · rw [if_pos hl] at h
      simp only [Except.ok.injEq] at h
      subst h
      refine ⟨rfl, ?_, rfl⟩
      simp [List.range_zero]
    · rw [if_neg hl] at h; simp at h
  | cons r rest =>
    cases rest with
    | nil => simp at hne
    | cons b t =>
      simp only [mkDF] at h
      by_cases hl : labels.length = r.length
      · rw [if_pos hl] at h
        simp only [Except.ok.injEq] at h
        subst h
        exact ⟨rfl, rfl, rfl⟩
      · rw [if_neg hl] at h; simp at h

theorem load_ok_inv (content : String) (rows : List (List ℚ))
    (ic fin : DataFrame) (hne : rows.length ≠ 1)
    (hl : load_flight_data content = .ok (ic, fin))
    (ht : loadtxt content = .ok rows) :
    ic = reset_index (evenSlice ⟨scanHeader content, List.range rows.length, rows⟩) ∧
    fin = reset_index (oddSlice ⟨scanHeader content, List.range rows.length, rows⟩) := by
  unfold load_flight_data load_two at hl
  rw [ht] at hl
  dsimp only at hl
  cases hdf : mkDF (scanHeader content) rows with
  | error e => rw [hdf] at hl; simp at hl
  | ok df =>
    rw [hdf] at hl
    dsimp only at hl
    obtain ⟨hc, hi, hd⟩ := mkDF_ok_inv _ _ _ hne hdf
    have hdf2 : df = ⟨scanHeader content, List.range rows.length, rows⟩ := by
      cases df
      simp only at hc hi hd
      rw [hc, hi, hd]
    simp only [Except.ok.injEq, Prod.mk.injEq] at hl
    rw [hdf2] at hl
    exact ⟨hl.1.symm, hl.2.symm⟩

/-! ### Shape of the two tables produced by the split -/

theorem even_reset_getElem? (labels : List String) (rows : List (List ℚ)) (i : Nat) :
    (reset_index (evenSlice ⟨labels, List.range rows.length, rows⟩)).data[i]? =
      (rows[2 * i]?).map (fun r => ((2 * i : Nat) : ℚ) :: r) := by
  simp only [reset_index, evenSlice, List.getElem?_zipWith, everyOther_getElem?]
  cases h2 : rows[2 * i]? with
  | none =>
    have hlen : rows.length ≤ 2 * i := by
      by_contra hcon
      rw [List.getElem?_eq_getElem (by omega)] at h2
      simp at h2
    have : (List.range rows.length)[2 * i]? = none := by
      apply List.getElem?_eq_none; simpa using hlen
    rw [this]
    rfl
  | some r =>
    have hlt : 2 * i < rows.length := by
      by_contra hcon
      rw [List.getElem?_eq_none (by omega)] at h2
      simp at h2
    rw [List.getElem?_range hlt]
    rfl

theorem odd_reset_getElem? (labels : List String) (rows : List (List ℚ)) (i : Nat) :
    (reset_index (oddSlice ⟨labels, List.range rows.length, rows⟩)).data[i]? =
      (rows[2 * i + 1]?).map (fun r => ((2 * i + 1 : Nat) : ℚ) :: r) := by
  simp only [reset_index, oddSlice, List.getElem?_zipWith, everyOther_getElem?,
    List.getElem?_drop]
  have harith : 1 + 2 * i = 2 * i + 1 := by omega
  rw [harith]
  cases h2 : rows[2 * i + 1]? with
  | none =>
    have hlen : rows.length ≤ 2 * i + 1 := by
      by_contra hcon
      rw [List.getElem?_eq_getElem (by omega)] at h2
      simp at h2
    have : (List.range rows.length)[2 * i + 1]? = none := by
      apply List.getElem?_eq_none; simpa using hlen
    rw [this]
    rfl
  | some r =>
    have hlt : 2 * i + 1 < rows.length := by
      by_contra hcon
      rw [List.getElem?_eq_none (by omega)] at h2
      simp at h2
    rw [List.getElem?_range hlt]
    rfl

theorem even_reset_length (labels : List String) (rows : List (List ℚ)) :
    (reset_index (evenSlice ⟨labels, List.range rows.length, rows⟩)).data.length =
      (rows.length + 1) / 2 := by
  simp only [reset_index, evenSlice, List.length_zipWith, everyOther_length,
    List.length_range]
  omega

theorem odd_reset_length (labels : List String) (rows : List (List ℚ)) :
    (reset_index (oddSlice ⟨labels, List.range rows.length, rows⟩)).data.length =
      rows.length / 2 := by
  simp only [reset_index, oddSlice, List.length_zipWith, everyOther_length,
    List.length_drop, List.length_range]
  omega

/-! ### Lemmas about the penalty reduction -/

theorem foldl_mono_general (vs : List ℚ) :
    ∀ (l : List Nat) (p : ℚ),
      l.foldl (fun acc i => if vs.getD (i + 1) 0 > vs.getD i 0 then acc + 500 else acc) p =
        p + 500 * ((l.filter (fun i => decide (vs.getD (i + 1) 0 > vs.getD i 0))).length : ℚ) := by
  intro l
  induction l with
  | nil => intro p; simp
  | cons a t ih =>
    intro p
    simp only [List.foldl_cons]
    by_cases hc : vs.getD (a + 1) 0 > vs.getD a 0
    · rw [if_pos hc, ih (p + 500), List.filter_cons_of_pos (by simpa using hc)]
      simp only [List.length_cons]
      push_cast
      ring
    · rw [if_neg hc, ih p, List.filter_cons_of_neg (by simpa using hc)]

theorem monoFold_eq (vs : List ℚ) (p : ℚ) : monoFold vs p = p + 500 * countIncr vs := by
  unfold monoFold countIncr
  exact foldl_mono_general vs (List.range (vs.length - 1)) p

theorem foldl_max_const (c : ℚ) : ∀ (t : List ℚ), (∀ x ∈ t, x = c) → t.foldl max c = c := by
  intro t
  induction t with
  | nil => intro _; rfl
  | cons y ys ih =>
    intro h
    have hy : y = c := h y (List.mem_cons_self y ys)
    simp only [List.foldl_cons, hy, max_self]
    exact ih (fun x hx => h x (List.mem_cons_of_mem y hx))

theorem foldl_min_const (c : ℚ) : ∀ (t : List ℚ), (∀ x ∈ t, x = c) → t.foldl min c = c := by
  intro t
  induction t with
  | nil => intro _; rfl
  | cons y ys ih =>
    intro h
    have hy : y = c := h y (List.mem_cons_self y ys)
    simp only [List.foldl_cons, hy, min_self]
    exact ih (fun x hx => h x (List.mem_cons_of_mem y hx))

theorem maxQ_eq_minQ (l : List ℚ) (h : ∀ x ∈ l, ∀ y ∈ l, x = y) : maxQ l = minQ l := by
  cases l with
  | nil => rfl
  | cons x xs =>
    have hx : ∀ y ∈ xs, y = x := fun y hy =>
      h y (List.mem_cons_of_mem x hy) x (List.mem_cons_self x xs)
    simp only [maxQ, minQ, foldl_max_const x xs hx, foldl_min_const x xs hx]

theorem goGroups_zero (ke : List ℚ) (df_res : DataFrame) (ys : List ℚ)
    (hys : df_res.col "Y" = .ok ys) :
    ∀ (es : List ℚ) (acc : ℚ),
      (∀ e ∈ es, maxQ (selectEq ke ys e) = minQ (selectEq ke ys e)) →
      goGroups es ke df_res acc = .ok acc := by
  intro es
  induction es with
  | nil => intro acc _; rfl
  | cons e es ih =>
    intro acc h
    unfold goGroups
    rw [hys]
    dsimp only
    have h0 : acc + (maxQ (selectEq ke ys e) - minQ (selectEq ke ys e)) ^ 2 = acc := by
      rw [h e (List.mem_cons_self e es)]
      ring
    rw [h0]
    exact ih acc (fun x hx => h x (List.mem_cons_of_mem e hx))

/-! ### Shared concrete fixtures for witnesses -/

/-- The parsed numeric body of `art1`. -/
def rows1 : List (List ℚ) := [[1, 1, 7], [1, 1, 8], [2, 3, 7], [2, 3, 9]]

/-- The parsed numeric body of `art2`. -/
def rows2 : List (List ℚ) := [[1, 1, 7, 0], [1, 1, 8, 0], [2, 3, 7, 0]]

/-- A frame with a `KE` column and no rows. -/
def dfKE : DataFrame := ⟨["KE"], [], []⟩

/-- Initial-state frame for the zero-spread witness. -/
def dfIC6 : DataFrame := ⟨["KE"], [0, 1, 2, 3], [[1], [1], [2], [2]]⟩

/-- Final-state frame for the zero-spread witness: both energy groups
have constant `Y`. -/
def dfRES6 : DataFrame := ⟨["Y"], [0, 1, 2, 3], [[5], [5], [7], [7]]⟩

/-- The header line of `art4`, with its terminator. -/
def hdr4 : String := "\x22Ion N\x22,\x22KE\x22,\x22Y\x22,\x22TOF\x22\n"

/-! ### The claims -/

section Claims

attribute [local semireducible] Rat.add Rat.sub Rat.mul Rat.inv

/-- C1: the claim fails on the code, which is a slip against the
source's own comments (`Remove \n from last letter`, `Remove " from
both sides of index`): for the header line with fields
`"Ion N","KE","Y"` plus terminator, the newline-stripped value of the
last field is overwritten by the unconditional `idx[1:-1]`, so the last
column label comes out as `Y"` (first character and terminator removed,
trailing quote kept), not `Y`. -/
theorem claim1_code_eval :
    (load_flight_data art1).map (fun p => p.1.cols) =
      .ok ["index", "Ion N", "KE", "Y\x22"] ∧
    ("Y\x22" : String) ≠ "Y" := by
  exact ⟨by decide, by decide⟩

/-- C2 counterexample: on the artifact `art2`, whose body has 3 rows,
`load_flight_data` does not fail at all: it returns an initial table
with 2 rows and a final table with 1 row. -/
theorem claim2_counterexample :
    (load_flight_data art2).map (fun p => (p.1.data.length, p.2.data.length)) =
      .ok (2, 1) := by
  decide

/-- C2 (amended): the code performs no odd-row check: for an artifact
whose body parses to `2*n + 1` rows (`n ≥ 1`), `load` succeeds and
silently returns an initial table with `n + 1` rows and a final table
with `n` rows. -/
theorem claim2_amended (content : String) (rows : List (List ℚ)) (n : Nat)
    (ic fin : DataFrame)
    (hl : load_flight_data content = .ok (ic, fin))
    (ht : loadtxt content = .ok rows)
    (hn : rows.length = 2 * n + 1) (hn1 : 1 ≤ n) :
    ic.data.length = n + 1 ∧ fin.data.length = n := by
  obtain ⟨h1, h2⟩ := load_ok_inv content rows ic fin (by omega) hl ht
  subst h1; subst h2
  constructor
  · rw [even_reset_length, hn]; omega
  · rw [odd_reset_length, hn]; omega

/-- C2 witness: the amended statement instantiated on `art2`. -/
theorem claim2_witness :
    (load_flight_data art2 = .ok (icA2, finA2) ∧ loadtxt art2 = .ok rows2 ∧
      rows2.length = 2 * 1 + 1) ∧
    (icA2.data.length = 1 + 1 ∧ finA2.data.length = 1) :=
  ⟨⟨by decide, by decide, by decide⟩,
    claim2_amended art2 rows2 1 icA2 finA2 (by decide) (by decide) (by decide)
      (by decide)⟩

/-- C3: for a well-formed artifact whose body parses to `2*n` rows,
each table has exactly `n` rows; row `i` of the initial table carries
body row `2*i` and row `i` of the final table carries body row
`2*i + 1` (after the prepended `index` column is dropped). -/
theorem claim3_pairing (content : String) (rows : List (List ℚ)) (n : Nat)
    (ic fin : DataFrame)
    (hl : load_flight_data content = .ok (ic, fin))
    (ht : loadtxt content = .ok rows)
    (hn : rows.length = 2 * n) :
    ic.data.length = n ∧ fin.data.length = n ∧
    (∀ i, i < n → (ic.data[i]?).map (List.drop 1) = rows[2 * i]?) ∧
    (∀ i, i < n → (fin.data[i]?).map (List.drop 1) = rows[2 * i + 1]?) := by
  obtain ⟨h1, h2⟩ := load_ok_inv content rows ic fin (by omega) hl ht
  subst h1; subst h2
  refine ⟨?_, ?_, ?_, ?_⟩
  · rw [even_reset_length, hn]; omega
  · rw [odd_reset_length, hn]; omega
  · intro i hi
    rw [even_reset_getElem?, List.getElem?_eq_getElem (show 2 * i < rows.length by omega)]
    simp
  · intro i hi
    rw [odd_reset_getElem?,
      List.getElem?_eq_getElem (show 2 * i + 1 < rows.length by omega)]
    simp

/-- C3 witness: the pairing invariant instantiated on `art1` (n = 2). -/
theorem claim3_witness :
    (load_flight_data art1 = .ok (icA1, finA1) ∧ loadtxt art1 = .ok rows1 ∧
      rows1.length = 2 * 2) ∧
    (icA1.data.length = 2 ∧ finA1.data.length = 2 ∧
      (∀ i, i < 2 → (icA1.data[i]?).map (List.drop 1) = rows1[2 * i]?) ∧
      (∀ i, i < 2 → (finA1.data[i]?).map (List.drop 1) = rows1[2 * i + 1]?)) :=
  ⟨⟨by decide, by decide, by decide⟩,
    claim3_pairing art1 rows1 2 icA1 finA1 (by decide) (by decide) (by decide)⟩

/-- C4: on an artifact with two energy groups of two ions each, final
`Y` values `{1.0, 1.0}` and `{2.0, 4.0}`, and a non-increasing voltage
ladder, the penalty is `(1.0 - 1.0)^2 + (4.0 - 2.0)^2 + 0 = 4.0`. -/
theorem claim4_end_to_end : vmi_cost_core art4 [3000, 2000, 1000] = .ok 4 := by
  decide

/-- C5: the monotonicity loop adds exactly `500` per increasing
adjacent pair, starting from whatever the grouping term produced
(hence independently of it), and on `[3000, 3500, 3200]` it
contributes exactly `500`. -/
theorem claim5_monotonicity :
    (∀ (vs : List ℚ) (p : ℚ), monoFold vs p = p + 500 * countIncr vs) ∧
    (∀ (df_ic df_res : DataFrame) (vs : List ℚ) (p1 : ℚ),
        groupFold df_ic df_res = .ok p1 →
        vmi_penalty df_ic df_res vs = .ok (p1 + 500 * countIncr vs)) ∧
    monoFold [3000, 3500, 3200] 0 = 500 := by
  refine ⟨fun vs p => monoFold_eq vs p, ?_, by decide⟩
  intro df_ic df_res vs p1 h
  unfold vmi_penalty
  rw [h]
  dsimp only
  rw [monoFold_eq]

/-- C5 witness: the additivity part instantiated on an empty frame and
the ladder `[3000, 3500, 3200]`. -/
theorem claim5_witness :
    groupFold dfKE dfKE = .ok 0 ∧
    vmi_penalty dfKE dfKE [3000, 3500, 3200] =
      .ok (0 + 500 * countIncr [3000, 3500, 3200]) :=
  ⟨by decide, claim5_monotonicity.2.1 dfKE dfKE [3000, 3500, 3200] 0 (by decide)⟩

/-- C6: whenever, within each group of rows sharing the same initial
`KE` value, all selected final `Y` values are identical, the grouping
term evaluates to exactly `0`. -/
theorem claim6_zero_spread (df_ic df_res : DataFrame) (ke ys : List ℚ)
    (hke : df_ic.col "KE" = .ok ke) (hys : df_res.col "Y" = .ok ys)
    (hsame : ∀ e ∈ uniques ke, ∀ x ∈ selectEq ke ys e, ∀ y ∈ selectEq ke ys e, x = y) :
    groupFold df_ic df_res = .ok 0 := by
  unfold groupFold
  rw [hke]
  dsimp only
  exact goGroups_zero ke df_res ys hys (uniques ke) 0
    (fun e he => maxQ_eq_minQ _ (hsame e he))

/-- C6 witness: two energy groups, each with constant final `Y`. -/
theorem claim6_witness :
    (dfIC6.col "KE" = .ok [1, 1, 2, 2] ∧ dfRES6.col "Y" = .ok [5, 5, 7, 7] ∧
      (∀ e ∈ uniques [1, 1, 2, 2], ∀ x ∈ selectEq [1, 1, 2, 2] [5, 5, 7, 7] e,
        ∀ y ∈ selectEq [1, 1, 2, 2] [5, 5, 7, 7] e, x = y)) ∧
    groupFold dfIC6 dfRES6 = .ok 0 :=
  ⟨⟨by decide, by decide, by decide⟩,
    claim6_zero_spread dfIC6 dfRES6 [1, 1, 2, 2] [5, 5, 7, 7] (by decide) (by decide)
      (by decide)⟩

/-- C7 counterexample: on `art7` no line contains the marker, yet the
failure is the numeric `ParseError` from the body parse, not
`FormatError`: the scan itself never fails, so the claimed
`FormatError`-on-missing-marker does not hold as stated. -/
theorem claim7_counterexample :
    (pyLines art7).all (fun l => !(hasSub markerStr.data l.data)) = true ∧
    load_flight_data art7 = .error (.ParseError 0) ∧
    load_flight_data art7 ≠ .error .FormatError := by
  exact ⟨by decide, by decide, by decide⟩

/-- C7 (amended): the scan does take the first marker line, but a
missing marker is not detected during scanning: the loader proceeds,
failing with `ParseError` if the body is malformed, and otherwise with
`FormatError` when the empty label list is attached to the parsed
body. -/
theorem claim7_amended :
    (∀ (content : String) (i : Nat) (l : String),
        (pyLines content)[i]? = some l →
        hasSub markerStr.data l.data = true →
        (∀ j, j < i → lineIsMarker content j = false) →
        scanHeader content = (pySplit l ',').map pyStrip1) ∧
    (∀ (content : String) (rows : List (List ℚ)),
        (∀ l ∈ pyLines content, hasSub markerStr.data l.data = false) →
        loadtxt content = .ok rows →
        load_flight_data content = .error .FormatError) := by
  constructor
  · intro content i l hi hl hprev
    unfold scanHeader
    have hfind : (pyLines content).find? (fun s => hasSub markerStr.data s.data) = some l := by
      apply find?_first _ (pyLines content) i l hi hl
      intro j hj b hb
      have hjl := hprev j hj
      unfold lineIsMarker at hjl
      rw [hb] at hjl
      exact hjl
    rw [hfind]
  · intro content rows hnone ht
    have hfind : (pyLines content).find? (fun s => hasSub markerStr.data s.data) = none :=
      List.find?_eq_none.mpr (fun x hx => by simp [hnone x hx])
    have hsh : scanHeader content = [] := by unfold scanHeader; rw [hfind]
    unfold load_flight_data load_two
    rw [ht]
    dsimp only
    rw [hsh]
    have hnonempty := loadtxtRows_nonempty (dataLines content) 0 none rows ht
    cases rows with
    | nil => simp [mkDF]
    | cons a rest =>
      cases rest with
      | nil => simp [mkDF]
      | cons b t =>
        have ha : a ≠ [] := hnonempty a (List.mem_cons_self a (b :: t))
        have hlen : ¬(([] : List String).length = a.length) := by
          simp only [List.length_nil]
          intro h0
          exact ha (List.length_eq_zero.mp h0.symm)
        simp only [mkDF]
        rw [if_neg hlen]

/-- C7 witness: the amended statement instantiated: the header of
`art4` is taken from its first marker line (index 2), and the
marker-free artifact with a clean body fails with `FormatError`. -/
theorem claim7_witness :
    scanHeader art4 = ["Ion N", "KE", "Y", "TOF\x22"] ∧
    load_flight_data artNM = .error .FormatError := by
  constructor
  · have h := claim7_amended.1 art4 2 hdr4 (by decide) (by decide) (by decide)
    rw [h]; decide
  · exact claim7_amended.2 artNM [[1, 2]] (by decide) (by decide)

/-- C8: a malformed numeric row makes the loader fail with the numeric
parse error carrying the 0-based index of the offending data row (all
earlier rows parsing cleanly at a common width). -/
theorem claim8_parse_error (content : String) (good : List String) (bad : String)
    (rest : List String) (w : Nat)
    (hsplit : dataLines content = good ++ bad :: rest)
    (hgood : ∀ l ∈ good, (parseRow l).map List.length = some w)
    (hbad : parseRow bad = none) :
    load_flight_data content = .error (.ParseError good.length) := by
  have ht : loadtxt content = .error (.ParseError good.length) := by
    unfold loadtxt
    rw [hsplit, loadtxtRows_err bad rest hbad good w hgood 0 none (Or.inl rfl)]
    simp
  unfold load_flight_data load_two
  rw [ht]

/-- C8 witness: `art8` has one clean data row followed by a row with
the token `oops`; the loader fails with `ParseError 1`. -/
theorem claim8_witness :
    (dataLines art8 = ["1.0,2.0"] ++ "1.0,oops" :: [] ∧
      (∀ l ∈ ["1.0,2.0"], (parseRow l).map List.length = some 2) ∧
      parseRow "1.0,oops" = none) ∧
    load_flight_data art8 = .error (.ParseError 1) :=
  ⟨⟨by decide, by decide, by decide⟩,
    claim8_parse_error art8 ["1.0,2.0"] "1.0,oops" [] 2 (by decide) (by decide)
      (by decide)⟩

/-- C9: the loader only reads: after `load_flight_data_io` the file
system is exactly what it was before the call, for every file system
and path stem. -/
theorem claim9_frame (fs : FS) (name : String) :
    (load_flight_data_io fs name).2 = fs := by
  unfold load_flight_data_io readFile
  cases h : fs (name ++ ".txt") <;> simp [h]

/-- C10: both returned tables carry an extra first column named
`index` holding the original body-row positions (`0, 2, ...` for the
initial table, `1, 3, ...` for the final table), and both are
relabelled with the dense index `0..n-1`. -/
theorem claim10_index_column (content : String) (rows : List (List ℚ)) (n : Nat)
    (ic fin : DataFrame)
    (hl : load_flight_data content = .ok (ic, fin))
    (ht : loadtxt content = .ok rows)
    (hn : rows.length = 2 * n) :
    ic.cols = "index" :: scanHeader content ∧
    fin.cols = "index" :: scanHeader content ∧
    ic.idx = List.range n ∧ fin.idx = List.range n ∧
    (∀ i, i < n → (ic.data[i]?).bind List.head? = some ((2 * i : Nat) : ℚ)) ∧
    (∀ i, i < n → (fin.data[i]?).bind List.head? = some ((2 * i + 1 : Nat) : ℚ)) := by
  obtain ⟨h1, h2⟩ := load_ok_inv content rows ic fin (by omega) hl ht
  subst h1; subst h2
  refine ⟨rfl, rfl, ?_, ?_, ?_, ?_⟩
  · show List.range ((everyOther rows).length) = List.range n
    rw [everyOther_length, hn]
    congr 1
    omega
  · show List.range ((everyOther (rows.drop 1)).length) = List.range n
    rw [everyOther_length, List.length_drop, hn]
    congr 1
    omega
  · intro i hi
    rw [even_reset_getElem?, List.getElem?_eq_getElem (show 2 * i < rows.length by omega)]
    simp
  · intro i hi
    rw [odd_reset_getElem?,
      List.getElem?_eq_getElem (show 2 * i + 1 < rows.length by omega)]
    simp

/-- C10 witness: the index-column description instantiated on `art1`. -/
theorem claim10_witness :
    (load_flight_data art1 = .ok (icA1, finA1) ∧ loadtxt art1 = .ok rows1 ∧
      rows1.length = 2 * 2) ∧
    (icA1.cols = "index" :: scanHeader art1 ∧
      finA1.cols = "index" :: scanHeader art1 ∧
      icA1.idx = List.range 2 ∧ finA1.idx = List.range 2 ∧
      (∀ i, i < 2 → (icA1.data[i]?).bind List.head? = some ((2 * i : Nat) : ℚ)) ∧
      (∀ i, i < 2 → (finA1.data[i]?).bind List.head? = some ((2 * i + 1 : Nat) : ℚ))) :=
  ⟨⟨by decide, by decide, by decide⟩,
    claim10_index_column art1 rows1 2 icA1 finA1 (by decide) (by decide) (by decide)⟩

end Claims
